import Mathlib

/-!
Shallow embedding of `src/feature_engineer_module.c` (NEMEA feature engineer
module) and verification of the specification claims about its processing
function `process_flow`.

Modelling conventions:
* C unsigned machine integers are `Nat` with an explicit `% 2^w` at every
  operation where wraparound is possible (`uint64` totals, `uint32`
  accumulators).  Accumulators whose values provably stay far below the
  width (the `uint64` packet-length sums, bounded by `2^16 * 2^32`) are kept
  as plain `Nat`.
* C `double` values are modelled as exact rationals (`ℚ`); the only
  floating-point behaviour the claims depend on is division by zero, which
  is modelled by the type `DVal` with IEEE-style special values
  (`x / 0 = +inf` for `x > 0`, `0 / 0 = NaN`).  Rounding of doubles is not
  modelled; every concrete value appearing in the theorems is exactly
  representable.
* The per-packet vectors are Lean lists.  The C loop indexes
  `pkt_lens[i]` / `pkt_times[i]` with the length of `pkt_dirs` as bound and
  performs no bounds check; an out-of-bounds access (undefined behaviour in
  C) is modelled by the scan returning `none`.
* `process_flow` writes into a caller-supplied output record and leaves
  every field it does not set unchanged; the model therefore threads the
  previous output record through the function, exactly as the C module
  reuses one `out_rec` buffer across calls.
-/

/-- Modelled from the spec: `ur_timediff` of the external unirec time
interface is the unsigned difference of two 32.32 fixed-point timestamps
converted to milliseconds (spec §4.1: "unsigned difference in the record's
time unit, converted to milliseconds"). -/
def ur_timediff (a b : Nat) : Nat :=
  (if a ≥ b then a - b else b - a) * 1000 / 2 ^ 32

/-- A C `double` restricted to the operations this module performs:
exact rational values plus the IEEE special values produced by dividing a
nonnegative finite value by zero.  (All numerators in the module are casts
of unsigned integers, so a negative infinity can never arise.) -/
inductive DVal where
  | fin : ℚ → DVal
  | posInf : DVal
  | nan : DVal
deriving Repr, DecidableEq

/-- IEEE-style division for the nonnegative operands occurring in the
module: `x / 0` is `+∞` for `x > 0`, `NaN` for `0 / 0`, exact otherwise. -/
def DVal.div (a b : ℚ) : DVal :=
  if b = 0 then (if a = 0 then DVal.nan else DVal.posInf) else DVal.fin (a / b)

/-- Input unirec record (`IN_SPEC` fields read by `process_flow`).
`bytes`/`bytes_rev` are `uint64`, `packets`/`packets_rev` are `uint32`,
timestamps are `ur_time_t` (64-bit fixed point), `pkt_dirs` holds `int8`
values, `pkt_lens` holds `uint16` values. -/
structure FlowRecord where
  dst_ip : Nat
  src_ip : Nat
  bytes : Nat
  bytes_rev : Nat
  time_first : Nat
  time_last : Nat
  packets : Nat
  packets_rev : Nat
  pkt_dirs : List Int
  pkt_lens : List Nat
  pkt_times : List Nat
deriving Repr, DecidableEq

/-- Output unirec record: the copied scalar input fields plus the derived
feature fields of `NEW_FEATURES`.  `min_pkt_len` / `max_pkt_len` are
declared in the output template (`uint16 MIN_PKT_LEN, MAX_PKT_LEN`). -/
structure FeatureRecord where
  dst_ip : Nat
  src_ip : Nat
  time_first : Nat
  time_last : Nat
  bytes : Nat
  bytes_rev : Nat
  packets : Nat
  packets_rev : Nat
  bytes_ratio : ℚ
  time_dur_ms : Nat
  bytes_per_ms : DVal
  packets_per_ms : DVal
  packets_ratio : ℚ
  packets_total : Nat
  bytes_total : Nat
  sent_percentage : ℚ
  recv_percentage : ℚ
  mean_time_between_pkts : ℚ
  mean_pkt_length : ℚ
  var_pkt_length : ℚ
  min_pkt_len : Nat
  max_pkt_len : Nat
deriving Repr, DecidableEq

/-- The running accumulators of the single scan loop
(`sent`, `recv`, `interval_sum`, `interval_cnt` are `uint32`;
`min_pkt_length`, `max_pkt_length` are `uint16`;
the two length sums are `uint64`). -/
structure ScanState where
  sent : Nat
  recv : Nat
  interval_sum : Nat
  interval_cnt : Nat
  pkt_length_sum : Nat
  pkt_length_sum_squared : Nat
  min_pkt_length : Nat
  max_pkt_length : Nat
deriving Repr, DecidableEq

/-- Initial accumulator values (line 155-157 of the C file): note the
running minimum starts at `INT16_MAX = 32767`, not `UINT16_MAX`. -/
def initScan : ScanState :=
  { sent := 0, recv := 0, interval_sum := 0, interval_cnt := 0,
    pkt_length_sum := 0, pkt_length_sum_squared := 0,
    min_pkt_length := 32767, max_pkt_length := 0 }

/-- One iteration of the loop body (lines 160-170).  The loop bound is the
length of `pkt_dirs`; `pkt_lens[i]` is read on every iteration and
`pkt_times[i]`, `pkt_times[i+1]` only when `i < pkt_dirs_len - 1`.
A read past the end of a vector is undefined behaviour, modelled as
`none`. -/
def scanStep (r : FlowRecord) (i : Nat) (s : ScanState) : Option ScanState := do
  let d ← r.pkt_dirs[i]?
  let l ← r.pkt_lens[i]?
  let tdiff ←
    if i < r.pkt_dirs.length - 1 then do
      let t0 ← r.pkt_times[i]?
      let t1 ← r.pkt_times[i + 1]?
      pure (ur_timediff t1 t0)
    else
      pure 0
  pure
    { sent := if d = 1 then (s.sent + 1) % 2 ^ 32 else s.sent
      recv := if d = 1 then s.recv else (s.recv + 1) % 2 ^ 32
      interval_sum := (s.interval_sum + tdiff) % 2 ^ 32
      interval_cnt := (s.interval_cnt + 1) % 2 ^ 32
      pkt_length_sum := s.pkt_length_sum + l
      pkt_length_sum_squared := s.pkt_length_sum_squared + l * l
      min_pkt_length := if l < s.min_pkt_length then l else s.min_pkt_length
      max_pkt_length := if l > s.max_pkt_length then l else s.max_pkt_length }

/-- The scan over the first `n` indices. -/
def scanN (r : FlowRecord) (n : Nat) : Option ScanState :=
  (List.range n).foldl (fun acc i => acc.bind (scanStep r i)) (some initScan)

/-- The full scan (lines 160-170): one loop over all `pkt_dirs_len`
indices. -/
def scan (r : FlowRecord) : Option ScanState :=
  scanN r r.pkt_dirs.length

/-- The processing function (`process_flow`, lines 125-202), given the
input record and the current contents of the reused output record.
Returns the C return value together with the updated output record, or
`none` if the scan reads out of bounds (undefined behaviour).  Note that
`MIN_PKT_LEN` and `MAX_PKT_LEN` are never assigned (no `ur_set` for them
in lines 179-199), so those fields keep their previous contents. -/
def process_flow (r : FlowRecord) (out : FeatureRecord) :
    Option (Int × FeatureRecord) :=
  let time_duration_ms := ur_timediff r.time_last r.time_first
  let bytes_total := (r.bytes + r.bytes_rev) % 2 ^ 64
  let packets_total := (r.packets + r.packets_rev) % 2 ^ 32
  let bytes_ratio : ℚ :=
    if r.bytes_rev = 0 then 0 else (r.bytes : ℚ) / (r.bytes_rev : ℚ)
  let packets_ratio : ℚ :=
    if r.packets_rev = 0 then 0 else (r.packets : ℚ) / (r.packets_rev : ℚ)
  let bytes_per_ms : DVal :=
    DVal.div (((r.bytes + r.bytes_rev) % 2 ^ 64 : Nat) : ℚ)
      ((time_duration_ms : Nat) : ℚ)
  let packets_per_ms : DVal :=
    DVal.div (((r.packets + r.packets_rev) % 2 ^ 32 : Nat) : ℚ)
      ((time_duration_ms : Nat) : ℚ)
  match scan r with
  | none => none
  | some s =>
    let n := r.pkt_dirs.length
    let mean_pkt_time : ℚ :=
      if s.interval_cnt = 0 then 0
      else (s.interval_sum : ℚ) / (s.interval_cnt : ℚ)
    let mean_pkt_len : ℚ :=
      if n = 0 then 0 else (s.pkt_length_sum : ℚ) / (n : ℚ)
    let var_pkt_len : ℚ :=
      if mean_pkt_len = 0 then 0
      else (s.pkt_length_sum_squared : ℚ) / (n : ℚ) -
        mean_pkt_len * mean_pkt_len
    let ssum := (s.sent + s.recv) % 2 ^ 32
    some (0,
      { out with
        dst_ip := r.dst_ip
        src_ip := r.src_ip
        time_first := r.time_first
        time_last := r.time_last
        bytes := r.bytes
        bytes_rev := r.bytes_rev
        packets := r.packets
        packets_rev := r.packets_rev
        bytes_ratio := bytes_ratio
        time_dur_ms := time_duration_ms
        bytes_per_ms := bytes_per_ms
        packets_per_ms := packets_per_ms
        packets_ratio := packets_ratio
        packets_total := packets_total
        bytes_total := bytes_total
        sent_percentage := ((if ssum = 0 then 0 else s.sent / ssum : Nat) : ℚ)
        recv_percentage := ((if ssum = 0 then 0 else s.recv / ssum : Nat) : ℚ)
        mean_time_between_pkts := mean_pkt_time
        mean_pkt_length := mean_pkt_len
        var_pkt_length := var_pkt_len })

/-- Number of packets whose direction flag is exactly `1`
(the `pkt_dirs[i] == 1` branch of line 162). -/
def sentCount (dirs : List Int) : Nat :=
  dirs.countP (fun d => decide (d = 1))

/-- Number of packets whose direction flag is anything other than `1`
(the `recv++` branch of line 162). -/
def recvCount (dirs : List Int) : Nat :=
  dirs.countP (fun d => decide (¬ d = 1))

/-- Declarative form of the interval accumulation of line 164 over the
first `n` loop indices: `ur_timediff(pkt_times[i+1], pkt_times[i])` for
every index except the last, `0` for the last. -/
def iSum (r : FlowRecord) (n : Nat) : Nat :=
  ((List.range n).map (fun i =>
    if i < r.pkt_dirs.length - 1 then
      ur_timediff (r.pkt_times.getD (i + 1) 0) (r.pkt_times.getD i 0)
    else 0)).sum

/-- Closed form of the scan state after the first `n` loop iterations. -/
def scanSpec (r : FlowRecord) (n : Nat) : ScanState :=
  { sent := sentCount (r.pkt_dirs.take n) % 2 ^ 32
    recv := recvCount (r.pkt_dirs.take n) % 2 ^ 32
    interval_sum := iSum r n % 2 ^ 32
    interval_cnt := n % 2 ^ 32
    pkt_length_sum := (r.pkt_lens.take n).sum
    pkt_length_sum_squared := ((r.pkt_lens.take n).map (fun l => l * l)).sum
    min_pkt_length := (r.pkt_lens.take n).foldl
      (fun m l => if l < m then l else m) 32767
    max_pkt_length := (r.pkt_lens.take n).foldl
      (fun m l => if l > m then l else m) 0 }

theorem iSum_succ (r : FlowRecord) (n : Nat) :
    iSum r (n + 1) = iSum r n +
      (if n < r.pkt_dirs.length - 1 then
        ur_timediff (r.pkt_times.getD (n + 1) 0) (r.pkt_times.getD n 0)
      else 0) := by
  simp [iSum, List.range_succ]

/-- One loop iteration takes the closed-form state at `n` to the
closed-form state at `n + 1`, under the vector-length invariant. -/
theorem scanStep_spec (r : FlowRecord) (n : Nat)
    (hn : n < r.pkt_dirs.length)
    (hl : r.pkt_lens.length = r.pkt_dirs.length)
    (ht : r.pkt_times.length = r.pkt_dirs.length) :
    scanStep r n (scanSpec r n) = some (scanSpec r (n + 1)) := by
  have hnl : n < r.pkt_lens.length := by omega
  have htaked : r.pkt_dirs.take (n + 1) =
      r.pkt_dirs.take n ++ [r.pkt_dirs[n]] := by
    rw [List.take_succ, List.getElem?_eq_getElem hn]
    rfl
  have htakel : r.pkt_lens.take (n + 1) =
      r.pkt_lens.take n ++ [r.pkt_lens[n]] := by
    rw [List.take_succ, List.getElem?_eq_getElem hnl]
    rfl
  by_cases hlt : n < r.pkt_dirs.length - 1
  · have h1 : n < r.pkt_times.length := by omega
    have h2 : n + 1 < r.pkt_times.length := by omega
    simp only [scanStep, List.getElem?_eq_getElem hn,
      List.getElem?_eq_getElem hnl, if_pos hlt,
      List.getElem?_eq_getElem h1, List.getElem?_eq_getElem h2,
      Option.bind_eq_bind, Option.some_bind, pure]
    simp only [scanSpec, Option.some.injEq, ScanState.mk.injEq]
    refine ⟨?_, ?_, ?_, ?_, ?_, ?_, ?_, ?_⟩
    · rw [htaked]
      simp only [sentCount, List.countP_append, List.countP_cons,
        List.countP_nil]
      by_cases hd : r.pkt_dirs[n] = 1 <;> simp [hd, Nat.mod_add_mod]
    · rw [htaked]
      simp only [recvCount, List.countP_append, List.countP_cons,
        List.countP_nil]
      by_cases hd : r.pkt_dirs[n] = 1 <;> simp [hd, Nat.mod_add_mod]
    · rw [iSum_succ, if_pos hlt, List.getD_eq_getElem _ _ h1,
        List.getD_eq_getElem _ _ h2, Nat.mod_add_mod]
    · rw [Nat.mod_add_mod]
    · rw [htakel, List.sum_append]
      simp
    · rw [htakel, List.map_append, List.sum_append]
      simp
    · rw [htakel, List.foldl_append]
      simp
    · rw [htakel, List.foldl_append]
      simp
  · simp only [scanStep, List.getElem?_eq_getElem hn,
      List.getElem?_eq_getElem hnl, if_neg hlt,
      Option.bind_eq_bind, Option.some_bind, pure]
    simp only [scanSpec, Option.some.injEq, ScanState.mk.injEq]
    refine ⟨?_, ?_, ?_, ?_, ?_, ?_, ?_, ?_⟩
    · rw [htaked]
      simp only [sentCount, List.countP_append, List.countP_cons,
        List.countP_nil]
      by_cases hd : r.pkt_dirs[n] = 1 <;> simp [hd, Nat.mod_add_mod]
    · rw [htaked]
      simp only [recvCount, List.countP_append, List.countP_cons,
        List.countP_nil]
      by_cases hd : r.pkt_dirs[n] = 1 <;> simp [hd, Nat.mod_add_mod]
    · rw [iSum_succ, if_neg hlt]
      simp
    · rw [Nat.mod_add_mod]
    · rw [htakel, List.sum_append]
      simp
    · rw [htakel, List.map_append, List.sum_append]
      simp
    · rw [htakel, List.foldl_append]
      simp
    · rw [htakel, List.foldl_append]
      simp

/-- The scan over the first `n` indices computes the closed-form state,
under the vector-length invariant. -/
theorem scanN_spec (r : FlowRecord) (n : Nat)
    (hn : n ≤ r.pkt_dirs.length)
    (hl : r.pkt_lens.length = r.pkt_dirs.length)
    (ht : r.pkt_times.length = r.pkt_dirs.length) :
    scanN r n = some (scanSpec r n) := by
  induction n with
  | zero =>
    rfl
  | succ m ih =>
    have hm : m ≤ r.pkt_dirs.length := by omega
    rw [scanN, List.range_succ, List.foldl_append]
    have : (List.range m).foldl (fun acc i => acc.bind (scanStep r i))
        (some initScan) = some (scanSpec r m) := ih hm
    rw [this]
    simp only [List.foldl_cons, List.foldl_nil, Option.some_bind]
    exact scanStep_spec r m (by omega) hl ht

/-- The full scan computes the closed-form state over the whole vectors,
under the vector-length invariant. -/
theorem scan_spec (r : FlowRecord)
    (hl : r.pkt_lens.length = r.pkt_dirs.length)
    (ht : r.pkt_times.length = r.pkt_dirs.length) :
    scan r = some (scanSpec r r.pkt_dirs.length) :=
  scanN_spec r _ (Nat.le_refl _) hl ht

/-- Closed form of the record produced by `process_flow` under the
vector-length invariant: every written field as a function of the input
record, with `min_pkt_len` / `max_pkt_len` passed through from the previous
output contents. -/
def featureSpec (r : FlowRecord) (out : FeatureRecord) : FeatureRecord :=
  let time_duration_ms := ur_timediff r.time_last r.time_first
  let n := r.pkt_dirs.length
  let s := scanSpec r n
  let mean_pkt_time : ℚ :=
    if s.interval_cnt = 0 then 0
    else (s.interval_sum : ℚ) / (s.interval_cnt : ℚ)
  let mean_pkt_len : ℚ :=
    if n = 0 then 0 else (s.pkt_length_sum : ℚ) / (n : ℚ)
  let var_pkt_len : ℚ :=
    if mean_pkt_len = 0 then 0
    else (s.pkt_length_sum_squared : ℚ) / (n : ℚ) - mean_pkt_len * mean_pkt_len
  let ssum := (s.sent + s.recv) % 2 ^ 32
  { out with
    dst_ip := r.dst_ip
    src_ip := r.src_ip
    time_first := r.time_first
    time_last := r.time_last
    bytes := r.bytes
    bytes_rev := r.bytes_rev
    packets := r.packets
    packets_rev := r.packets_rev
    bytes_ratio :=
      if r.bytes_rev = 0 then 0 else (r.bytes : ℚ) / (r.bytes_rev : ℚ)
    time_dur_ms := time_duration_ms
    bytes_per_ms :=
      DVal.div (((r.bytes + r.bytes_rev) % 2 ^ 64 : Nat) : ℚ)
        ((time_duration_ms : Nat) : ℚ)
    packets_per_ms :=
      DVal.div (((r.packets + r.packets_rev) % 2 ^ 32 : Nat) : ℚ)
        ((time_duration_ms : Nat) : ℚ)
    packets_ratio :=
      if r.packets_rev = 0 then 0 else (r.packets : ℚ) / (r.packets_rev : ℚ)
    packets_total := (r.packets + r.packets_rev) % 2 ^ 32
    bytes_total := (r.bytes + r.bytes_rev) % 2 ^ 64
    sent_percentage := ((if ssum = 0 then 0 else s.sent / ssum : Nat) : ℚ)
    recv_percentage := ((if ssum = 0 then 0 else s.recv / ssum : Nat) : ℚ)
    mean_time_between_pkts := mean_pkt_time
    mean_pkt_length := mean_pkt_len
    var_pkt_length := var_pkt_len }

/-- Under the vector-length invariant `process_flow` succeeds, returns `0`
and produces exactly the closed-form record. -/
theorem process_flow_spec (r : FlowRecord) (out : FeatureRecord)
    (hl : r.pkt_lens.length = r.pkt_dirs.length)
    (ht : r.pkt_times.length = r.pkt_dirs.length) :
    process_flow r out = some (0, featureSpec r out) := by
  unfold process_flow
  rw [scan_spec r hl ht]
  rfl

/-- Total of the consecutive packet-time differences
`ur_timediff(pkt_times[i+1], pkt_times[i])` over all `N - 1` consecutive
pairs. -/
def intervalTotal (times : List Nat) : Nat :=
  ((List.range (times.length - 1)).map
    (fun i => ur_timediff (times.getD (i + 1) 0) (times.getD i 0))).sum

/-- Over the whole vectors (with the length invariant), the loop's interval
accumulation is exactly the total over the `N - 1` consecutive pairs: the
final iteration contributes `0`. -/
theorem iSum_full (r : FlowRecord)
    (ht : r.pkt_times.length = r.pkt_dirs.length) :
    iSum r r.pkt_dirs.length = intervalTotal r.pkt_times := by
  rw [intervalTotal, ht]
  cases hn : r.pkt_dirs.length with
  | zero => simp [iSum]
  | succ m =>
    have h1 : iSum r (m + 1) = iSum r m + 0 := by
      rw [iSum_succ, hn]
      simp
    rw [h1, Nat.add_zero, iSum, Nat.add_sub_cancel]
    refine congrArg List.sum (List.map_congr_left ?_)
    intro i hi
    rw [List.mem_range] at hi
    rw [if_pos (by omega)]

/-- Modelled from the spec: the claimed real-valued sent fraction
`sent / (sent + recv)`, `0` when `sent + recv == 0` (spec §4.1 point 3),
stated for refinement comparison with the code's truncating division. -/
def specSentFraction (sent recv : Nat) : ℚ :=
  if sent + recv = 0 then 0 else (sent : ℚ) / ((sent + recv : Nat) : ℚ)

/-- Modelled from the spec: the claimed mean inter-arrival time, the sum of
the consecutive packet-time differences divided by the number of
consecutive pairs (`N - 1`), `0` for `N <= 1` (claim C6), stated for
refinement comparison with the code's division by `N`. -/
def specMeanInterArrival (times : List Nat) : ℚ :=
  if times.length ≤ 1 then 0
  else (intervalTotal times : ℚ) / ((times.length - 1 : Nat) : ℚ)

/-- A freshly allocated, all-zero output buffer. -/
def zeroOut : FeatureRecord :=
  { dst_ip := 0, src_ip := 0, time_first := 0, time_last := 0, bytes := 0,
    bytes_rev := 0, packets := 0, packets_rev := 0, bytes_ratio := 0,
    time_dur_ms := 0, bytes_per_ms := DVal.fin 0,
    packets_per_ms := DVal.fin 0, packets_ratio := 0, packets_total := 0,
    bytes_total := 0, sent_percentage := 0, recv_percentage := 0,
    mean_time_between_pkts := 0, mean_pkt_length := 0, var_pkt_length := 0,
    min_pkt_len := 0, max_pkt_len := 0 }

/-- A flow record with all-zero scalars and the given vectors. -/
def mkRec (dirs : List Int) (lens : List Nat) (times : List Nat) :
    FlowRecord :=
  { dst_ip := 0, src_ip := 0, bytes := 0, bytes_rev := 0, time_first := 0,
    time_last := 0, packets := 0, packets_rev := 0,
    pkt_dirs := dirs, pkt_lens := lens, pkt_times := times }

theorem sentCount_add_recvCount (dirs : List Int) :
    sentCount dirs + recvCount dirs = dirs.length := by
  induction dirs with
  | nil => rfl
  | cons d ds ih =>
    simp only [sentCount, recvCount, List.countP_cons, List.length_cons] at ih ⊢
    by_cases hd : d = 1
    · rw [if_pos (by simp [hd]), if_neg (by simp [hd])]
      omega
    · rw [if_neg (by simp [hd]), if_pos (by simp [hd])]
      omega

theorem nat_div_le_one {a b : Nat} (h : a ≤ b) : a / b ≤ 1 := by
  cases b with
  | zero =>
    have : a = 0 := by omega
    simp [this]
  | succ m =>
    calc a / (m + 1) ≤ (m + 1) / (m + 1) := Nat.div_le_div_right h
      _ = 1 := Nat.div_self (Nat.succ_pos m)

theorem featureSpec_sent_recv (r : FlowRecord) (out : FeatureRecord)
    (hn32 : r.pkt_dirs.length < 2 ^ 32) :
    (featureSpec r out).sent_percentage =
      ((sentCount r.pkt_dirs / r.pkt_dirs.length : Nat) : ℚ) ∧
    (featureSpec r out).recv_percentage =
      ((recvCount r.pkt_dirs / r.pkt_dirs.length : Nat) : ℚ) := by
  have hsc : sentCount r.pkt_dirs % 2 ^ 32 = sentCount r.pkt_dirs :=
    Nat.mod_eq_of_lt (lt_of_le_of_lt (List.countP_le_length _) hn32)
  have hrc : recvCount r.pkt_dirs % 2 ^ 32 = recvCount r.pkt_dirs :=
    Nat.mod_eq_of_lt (lt_of_le_of_lt (List.countP_le_length _) hn32)
  have hsum := sentCount_add_recvCount r.pkt_dirs
  simp only [featureSpec, scanSpec, List.take_length]
  rw [hsc, hrc, hsum, Nat.mod_eq_of_lt hn32]
  by_cases hn : r.pkt_dirs.length = 0
  · have h1 : sentCount r.pkt_dirs = 0 := by omega
    have h2 : recvCount r.pkt_dirs = 0 := by omega
    simp [hn, h1, h2]
  · simp [hn]

theorem featureSpec_mean_time (r : FlowRecord) (out : FeatureRecord)
    (ht : r.pkt_times.length = r.pkt_dirs.length)
    (hn32 : r.pkt_dirs.length < 2 ^ 32) :
    (featureSpec r out).mean_time_between_pkts =
      if r.pkt_dirs.length = 0 then 0
      else ((intervalTotal r.pkt_times % 2 ^ 32 : Nat) : ℚ) /
        (r.pkt_dirs.length : ℚ) := by
  simp only [featureSpec, scanSpec]
  rw [Nat.mod_eq_of_lt hn32, iSum_full r ht]

/-- Concrete records used by the claim theorems. -/
def mismatchRec : FlowRecord := mkRec [] [100] []

def emptyRec : FlowRecord := mkRec [] [] []

/-- A previously used output buffer whose (never rewritten) `MIN_PKT_LEN`
field holds `7`. -/
def staleOut : FeatureRecord := { zeroOut with min_pkt_len := 7 }

/-- Flow with zero duration (`time_first = time_last`) and nonzero bytes. -/
def zeroDurRec : FlowRecord :=
  { mkRec [] [] [] with bytes := 1000, bytes_rev := 500 }

/-- Flow whose `uint32` packet total wraps around. -/
def wrapRec : FlowRecord :=
  { mkRec [] [] [] with packets := 2 ^ 32 - 1, packets_rev := 1 }

/-- The concrete scenario of spec §8 (times in whole seconds). -/
def scenarioRec : FlowRecord :=
  { mkRec [1, 0, 1] [100, 200, 150] [0, 2 ^ 32, 2 * 2 ^ 32] with
    bytes := 1000, bytes_rev := 500, packets := 10, packets_rev := 5 }

/-- C1 counterexample: a record with mismatched vector lengths
(`packet_directions` empty, `packet_lengths` of length 1) is not rejected:
`process_flow` performs no length comparison, returns `0` and produces an
output record, contradicting the claim that every mismatched record yields
an `InvalidRecord` error and no output. -/
theorem c1_counterexample :
    mismatchRec.pkt_lens.length ≠ mismatchRec.pkt_dirs.length ∧
    (process_flow mismatchRec zeroOut).map Prod.fst = some 0 := by
  decide

/-- C1 (amended): `process_flow` performs no length validation and has no
error path; for every record satisfying the length invariant it returns `0`
and produces an output record (and, per the counterexample, it also does so
for some mismatched records; when a vector is shorter than the indices the
loop reads, the behaviour is out-of-bounds and undefined instead of an
`InvalidRecord` error). -/
theorem c1_no_validation (r : FlowRecord) (out : FeatureRecord)
    (hl : r.pkt_lens.length = r.pkt_dirs.length)
    (ht : r.pkt_times.length = r.pkt_dirs.length) :
    (process_flow r out).map Prod.fst = some 0 := by
  rw [process_flow_spec r out hl ht, Option.map_some']

theorem c1_no_validation_witness :
    (process_flow (mkRec [1] [100] [0]) zeroOut).map Prod.fst = some 0 :=
  c1_no_validation (mkRec [1] [100] [0]) zeroOut rfl rfl

/-- C2 counterexample: for the two-packet record with directions `[1, 0]`
(`sent = 1`, `recv = 1`, `N = 2 > 0`) the code's truncating `uint32`
division yields `sent_fraction = recv_fraction = 0`, whereas the claimed
real-valued fractions are `1/2` each and should sum to `1`. -/
theorem c2_counterexample :
    (process_flow (mkRec [1, 0] [10, 20] [0, 0]) zeroOut).map
        (fun p => (p.2.sent_percentage, p.2.recv_percentage)) =
      some (0, 0) ∧
    specSentFraction 1 1 = 1 / 2 ∧
    (0 : ℚ) + 0 ≠ 1 ∧ (0 : ℚ) ≠ 1 / 2 := by
  refine ⟨?_, ?_, ?_, ?_⟩
  · decide
  · norm_num [specSentFraction]
  · norm_num
  · norm_num

/-- C2 (amended): `sent_fraction` and `recv_fraction` are computed with
truncating integer division, `sent / (sent + recv)` and
`recv / (sent + recv)` over `uint32`; each lies in `[0, 1]` (indeed in
`{0, 1}`) and both are `0` when `sent + recv == 0`, but their sum is `0`,
not `1`, whenever both directions occur. -/
theorem c2_truncated_fractions (r : FlowRecord) (out : FeatureRecord)
    (hl : r.pkt_lens.length = r.pkt_dirs.length)
    (ht : r.pkt_times.length = r.pkt_dirs.length)
    (hn32 : r.pkt_dirs.length < 2 ^ 32) :
    (process_flow r out).map
        (fun p => (p.2.sent_percentage, p.2.recv_percentage)) =
      some (((sentCount r.pkt_dirs / r.pkt_dirs.length : Nat) : ℚ),
        ((recvCount r.pkt_dirs / r.pkt_dirs.length : Nat) : ℚ)) ∧
    0 ≤ ((sentCount r.pkt_dirs / r.pkt_dirs.length : Nat) : ℚ) ∧
    ((sentCount r.pkt_dirs / r.pkt_dirs.length : Nat) : ℚ) ≤ 1 ∧
    0 ≤ ((recvCount r.pkt_dirs / r.pkt_dirs.length : Nat) : ℚ) ∧
    ((recvCount r.pkt_dirs / r.pkt_dirs.length : Nat) : ℚ) ≤ 1 := by
  obtain ⟨h1, h2⟩ := featureSpec_sent_recv r out hn32
  refine ⟨?_, ?_, ?_, ?_, ?_⟩
  · rw [process_flow_spec r out hl ht, Option.map_some', h1, h2]
  · exact Nat.cast_nonneg _
  · exact_mod_cast nat_div_le_one (List.countP_le_length _)
  · exact Nat.cast_nonneg _
  · exact_mod_cast nat_div_le_one (List.countP_le_length _)

theorem c2_truncated_fractions_witness :
    (process_flow (mkRec [1, 0] [10, 20] [0, 0]) zeroOut).map
        (fun p => (p.2.sent_percentage, p.2.recv_percentage)) =
      some (0, 0) := by
  rw [(c2_truncated_fractions (mkRec [1, 0] [10, 20] [0, 0]) zeroOut rfl rfl
    (by decide)).1]
  decide

/-- C3: the claim is right about the intended extrema but the code never
writes them out.  On the spec §8 scenario record (lengths `[100, 200, 150]`)
the scan computes running extrema `(100, 200)` in its local accumulators,
yet the emitted record's `MIN_PKT_LEN` / `MAX_PKT_LEN` fields stay at the
output buffer's previous contents (`0` for a fresh buffer): lines 188-199
contain no `ur_set` for either field.  (Additionally the running minimum is
seeded with `INT16_MAX = 32767` although lengths are `uint16`, so even the
local minimum would be wrong for all-length-above-32767 flows.) -/
theorem c3_min_max_not_written :
    scenarioRec.pkt_lens = [100, 200, 150] ∧
    (scan scenarioRec).map (fun s => (s.min_pkt_length, s.max_pkt_length)) =
      some (100, 200) ∧
    (process_flow scenarioRec zeroOut).map
        (fun p => (p.2.min_pkt_len, p.2.max_pkt_len)) = some (0, 0) ∧
    ((0, 0) : Nat × Nat) ≠ (100, 200) := by
  refine ⟨rfl, by decide, by decide, by decide⟩

/-- C4 counterexample: `bytes_per_ms` and `packets_per_ms` divide by the
duration unconditionally (lines 151-152).  For a record with
`time_first = time_last` (duration `0`) and `bytes_total = 1500 > 0`,
`bytes_per_ms` is `+∞` (and `packets_per_ms`, with numerator `0`, is
`NaN`) — not the claimed sentinel `0`. -/
theorem c4_counterexample :
    ur_timediff zeroDurRec.time_last zeroDurRec.time_first = 0 ∧
    (process_flow zeroDurRec zeroOut).map
        (fun p => (p.2.bytes_per_ms, p.2.packets_per_ms)) =
      some (DVal.posInf, DVal.nan) ∧
    DVal.posInf ≠ DVal.fin 0 ∧ DVal.nan ≠ DVal.fin 0 := by
  refine ⟨rfl, ?_, by decide, by decide⟩
  rw [process_flow_spec zeroDurRec zeroOut rfl rfl, Option.map_some']
  simp [featureSpec, DVal.div, zeroDurRec, mkRec, ur_timediff]

/-- C4 (amended): only `bytes_ratio` and `packets_ratio` carry the
division-by-zero guard and yield the sentinel `0`; the per-millisecond
rates are divided unconditionally, so with `time_duration_ms == 0` they are
`+∞` when the (wrapped) total is nonzero and `NaN` when it is zero, never
the sentinel `0`. -/
theorem c4_guards (r : FlowRecord) (out : FeatureRecord)
    (hl : r.pkt_lens.length = r.pkt_dirs.length)
    (ht : r.pkt_times.length = r.pkt_dirs.length)
    (hdur : ur_timediff r.time_last r.time_first = 0)
    (hbr : r.bytes_rev = 0) (hpr : r.packets_rev = 0) :
    (process_flow r out).map
        (fun p => (p.2.bytes_ratio, p.2.packets_ratio)) = some (0, 0) ∧
    (process_flow r out).map
        (fun p => (p.2.bytes_per_ms, p.2.packets_per_ms)) =
      some
        ((if (r.bytes + r.bytes_rev) % 2 ^ 64 = 0 then DVal.nan
          else DVal.posInf),
         (if (r.packets + r.packets_rev) % 2 ^ 32 = 0 then DVal.nan
          else DVal.posInf)) := by
  rw [process_flow_spec r out hl ht, Option.map_some', Option.map_some']
  constructor
  · simp [featureSpec, hbr, hpr]
  · simp only [featureSpec, hdur, DVal.div, Nat.cast_zero, Nat.cast_eq_zero]
    simp

theorem c4_guards_witness :
    (process_flow emptyRec zeroOut).map
        (fun p => (p.2.bytes_ratio, p.2.packets_ratio)) = some (0, 0) ∧
    (process_flow emptyRec zeroOut).map
        (fun p => (p.2.bytes_per_ms, p.2.packets_per_ms)) =
      some
        ((if (emptyRec.bytes + emptyRec.bytes_rev) % 2 ^ 64 = 0 then DVal.nan
          else DVal.posInf),
         (if (emptyRec.packets + emptyRec.packets_rev) % 2 ^ 32 = 0 then
            DVal.nan
          else DVal.posInf)) :=
  c4_guards emptyRec zeroOut rfl rfl rfl rfl rfl

/-- C5 counterexample: `packets_total` is computed in `uint32`; with
`packets_fwd = 2^32 - 1` and `packets_rev = 1` the sum wraps to `0`, so the
total is not the exact mathematical sum. -/
theorem c5_counterexample :
    wrapRec.packets + wrapRec.packets_rev = 2 ^ 32 ∧
    (process_flow wrapRec zeroOut).map (fun p => p.2.packets_total) =
      some 0 ∧
    (0 : Nat) ≠ 2 ^ 32 := by
  refine ⟨by decide, by decide, by decide⟩

/-- C5 (amended): `bytes_total` and `packets_total` are the sums reduced
modulo `2^64` and `2^32`; they equal the exact sums precisely when those
fit the declared widths, and wrap silently otherwise. -/
theorem c5_totals (r : FlowRecord) (out : FeatureRecord)
    (hl : r.pkt_lens.length = r.pkt_dirs.length)
    (ht : r.pkt_times.length = r.pkt_dirs.length)
    (hb : r.bytes + r.bytes_rev < 2 ^ 64)
    (hp : r.packets + r.packets_rev < 2 ^ 32) :
    (process_flow r out).map
        (fun p => (p.2.bytes_total, p.2.packets_total)) =
      some (r.bytes + r.bytes_rev, r.packets + r.packets_rev) := by
  rw [process_flow_spec r out hl ht, Option.map_some']
  simp only [featureSpec]
  rw [Nat.mod_eq_of_lt hb, Nat.mod_eq_of_lt hp]

theorem c5_totals_witness :
    (process_flow scenarioRec zeroOut).map
        (fun p => (p.2.bytes_total, p.2.packets_total)) =
      some (1500, 15) := by
  rw [c5_totals scenarioRec zeroOut rfl rfl (by decide) (by decide)]
  decide

/-- C6 counterexample: for two packets 2000 ms apart the code divides the
interval sum by the interval counter, which is incremented once per packet
(`N = 2` times), yielding `1000`, whereas the claimed mean over the number
of consecutive pairs (`N - 1 = 1`) is `2000`. -/
theorem c6_counterexample :
    (mkRec [1, 1] [10, 10] [0, 2 * 2 ^ 32]).pkt_times.length = 2 ∧
    (process_flow (mkRec [1, 1] [10, 10] [0, 2 * 2 ^ 32]) zeroOut).map
        (fun p => p.2.mean_time_between_pkts) = some 1000 ∧
    specMeanInterArrival (mkRec [1, 1] [10, 10] [0, 2 * 2 ^ 32]).pkt_times =
      2000 ∧
    (1000 : ℚ) ≠ 2000 := by
  have hI : intervalTotal
      (mkRec [1, 1] [10, 10] [0, 2 * 2 ^ 32]).pkt_times = 2000 := by decide
  refine ⟨rfl, ?_, ?_, by norm_num⟩
  · rw [process_flow_spec _ _ rfl rfl, Option.map_some',
      featureSpec_mean_time _ _ rfl (by decide), hI]
    norm_num [mkRec]
  · rw [specMeanInterArrival, hI]
    norm_num [mkRec]

/-- C6 (amended): the interval counter is incremented once per packet, so
`mean_inter_arrival_ms` is the sum of the `N - 1` consecutive differences
(accumulated in `uint32`) divided by `N`, and `0` when `N == 0` (for
`N == 1` the sum is `0`, so the mean is also `0`, as the claim says). -/
theorem c6_mean_by_n (r : FlowRecord) (out : FeatureRecord)
    (hl : r.pkt_lens.length = r.pkt_dirs.length)
    (ht : r.pkt_times.length = r.pkt_dirs.length)
    (hn32 : r.pkt_dirs.length < 2 ^ 32) :
    (process_flow r out).map (fun p => p.2.mean_time_between_pkts) =
      some (if r.pkt_dirs.length = 0 then 0
        else ((intervalTotal r.pkt_times % 2 ^ 32 : Nat) : ℚ) /
          (r.pkt_dirs.length : ℚ)) := by
  rw [process_flow_spec r out hl ht, Option.map_some',
    featureSpec_mean_time r out ht hn32]

theorem c6_mean_by_n_witness :
    (process_flow (mkRec [1, 1] [10, 10] [0, 2 * 2 ^ 32]) zeroOut).map
        (fun p => p.2.mean_time_between_pkts) = some 1000 := by
  rw [c6_mean_by_n (mkRec [1, 1] [10, 10] [0, 2 * 2 ^ 32]) zeroOut rfl rfl
    (by decide)]
  have hI : intervalTotal
      (mkRec [1, 1] [10, 10] [0, 2 * 2 ^ 32]).pkt_times = 2000 := by decide
  rw [hI]
  norm_num [mkRec]

/-- C7 counterexample: on an empty record the output's `min_packet_length`
is not `0` in general: the field is never written, so it keeps the output
buffer's previous contents (here `7`). -/
theorem c7_counterexample :
    emptyRec.pkt_dirs.length = 0 ∧
    (process_flow emptyRec staleOut).map (fun p => p.2.min_pkt_len) =
      some 7 ∧
    (7 : Nat) ≠ 0 := by
  refine ⟨rfl, by decide, by decide⟩

/-- C7 (amended): for `N == 0` every vector-derived feature that the code
actually writes is `0` (`mean_packet_length`, `variance_packet_length`,
`mean_inter_arrival_ms`, `sent_fraction`, `recv_fraction`), while the
`MIN_PKT_LEN` / `MAX_PKT_LEN` output fields are never assigned and retain
the output buffer's previous contents (the discarded internal accumulators
hold `32767` and `0` in this case). -/
theorem c7_empty_features (r : FlowRecord) (out : FeatureRecord)
    (hd : r.pkt_dirs = []) (hl : r.pkt_lens = []) (ht : r.pkt_times = []) :
    (process_flow r out).map (fun p =>
        (p.2.mean_pkt_length, p.2.var_pkt_length, p.2.mean_time_between_pkts,
         p.2.sent_percentage, p.2.recv_percentage, p.2.min_pkt_len,
         p.2.max_pkt_len)) =
      some (0, 0, 0, 0, 0, out.min_pkt_len, out.max_pkt_len) := by
  have hl2 : r.pkt_lens.length = r.pkt_dirs.length := by
    rw [hd, hl]
    rfl
  have ht2 : r.pkt_times.length = r.pkt_dirs.length := by
    rw [hd, ht]
    rfl
  rw [process_flow_spec r out hl2 ht2, Option.map_some']
  simp [featureSpec, scanSpec, hd, hl, ht, sentCount, recvCount, iSum]

theorem c7_empty_features_witness :
    (process_flow emptyRec staleOut).map (fun p =>
        (p.2.mean_pkt_length, p.2.var_pkt_length, p.2.mean_time_between_pkts,
         p.2.sent_percentage, p.2.recv_percentage, p.2.min_pkt_len,
         p.2.max_pkt_len)) =
      some (0, 0, 0, 0, 0, 7, 0) :=
  c7_empty_features emptyRec staleOut rfl rfl rfl

/-- C8: the computation is deterministic and carries no hidden state: the
output is a function of the input record and the reused output buffer, and
a second invocation on the same input (with the buffer now holding the
first invocation's result) reproduces the identical record bit for bit —
every written field depends only on the input, and the unwritten
`MIN_PKT_LEN` / `MAX_PKT_LEN` fields pass through unchanged. -/
theorem c8_idempotent (r : FlowRecord) (out : FeatureRecord) (c : Int)
    (f : FeatureRecord) (h : process_flow r out = some (c, f)) :
    process_flow r f = some (c, f) := by
  unfold process_flow at h ⊢
  cases hs : scan r with
  | none =>
    rw [hs] at h
    simp at h
  | some s =>
    rw [hs] at h
    have h2 := Option.some.inj h
    rw [Prod.mk.injEq] at h2
    obtain ⟨hc, hf⟩ := h2
    subst hc
    subst hf
    rfl

theorem c8_idempotent_witness :
    process_flow scenarioRec (featureSpec scenarioRec zeroOut) =
      some (0, featureSpec scenarioRec zeroOut) :=
  c8_idempotent scenarioRec zeroOut 0 (featureSpec scenarioRec zeroOut)
    (process_flow_spec scenarioRec zeroOut rfl rfl)

/-- C9: whenever `process_flow` returns at all (its only `return`
statement is `return 0;` on line 201), the returned code is `0`, never
`-1`; the caller's processing-error branch at lines 293-295 can never
fire. -/
theorem c9_returns_zero (r : FlowRecord) (out : FeatureRecord)
    (c : Int) (f : FeatureRecord) (h : process_flow r out = some (c, f)) :
    c = 0 ∧ c ≠ -1 := by
  unfold process_flow at h
  cases hs : scan r with
  | none =>
    rw [hs] at h
    simp at h
  | some s =>
    rw [hs] at h
    have h2 := Option.some.inj h
    have hc : (0 : Int) = c := congrArg Prod.fst h2
    omega

theorem c9_returns_zero_witness : (0 : Int) = 0 ∧ (0 : Int) ≠ -1 :=
  c9_returns_zero emptyRec zeroOut 0 (featureSpec emptyRec zeroOut)
    (process_flow_spec emptyRec zeroOut rfl rfl)

/-- C10: a packet is tallied as sent exactly when its `int8` direction
flag equals `1` (`pkt_dirs[i] == 1`, line 162); every other value —
`0`, `-1`, any other flag — is tallied as received, and the two tallies
partition the `N` packets, so `sent + recv = N` after the scan. -/
theorem c10_direction_tally (r : FlowRecord)
    (hl : r.pkt_lens.length = r.pkt_dirs.length)
    (ht : r.pkt_times.length = r.pkt_dirs.length)
    (hn32 : r.pkt_dirs.length < 2 ^ 32) :
    (scan r).map (fun s => (s.sent, s.recv)) =
      some (sentCount r.pkt_dirs, recvCount r.pkt_dirs) ∧
    sentCount r.pkt_dirs + recvCount r.pkt_dirs = r.pkt_dirs.length := by
  have hsc : sentCount r.pkt_dirs % 2 ^ 32 = sentCount r.pkt_dirs :=
    Nat.mod_eq_of_lt (lt_of_le_of_lt (List.countP_le_length _) hn32)
  have hrc : recvCount r.pkt_dirs % 2 ^ 32 = recvCount r.pkt_dirs :=
    Nat.mod_eq_of_lt (lt_of_le_of_lt (List.countP_le_length _) hn32)
  refine ⟨?_, sentCount_add_recvCount r.pkt_dirs⟩
  rw [scan_spec r hl ht, Option.map_some']
  simp only [scanSpec, List.take_length]
  rw [hsc, hrc]

theorem c10_direction_tally_witness :
    (scan (mkRec [1, 0, -1] [5, 5, 5] [0, 0, 0])).map
        (fun s => (s.sent, s.recv)) = some (1, 2) ∧
    sentCount [1, 0, -1] + recvCount [1, 0, -1] = 3 := by
  have h := c10_direction_tally (mkRec [1, 0, -1] [5, 5, 5] [0, 0, 0])
    rfl rfl (by decide)
  refine ⟨?_, by decide⟩
  rw [h.1]
  decide
